import Mathlib

/-!
Verification of the MedNexa frontend against its specification.

The definitions below are shallow embeddings of the JavaScript source:
`formatLabel` and the trials filter from
`src/frontend/src/components/ChartsPanel.jsx`, the safety presentation from
`src/frontend/src/components/SafetyPanel.jsx` and
`src/frontend/src/pages/DashboardPage.jsx`, the zustand stores from
`src/frontend/src/store/store.js`, and the analyze request body from
`src/frontend/src/api/api.js`.  Strings are modelled as Lean `String`
(lists of characters); case conversion and character classes follow the
ASCII behaviour of the JavaScript string methods, which is what the
vocabulary strings in question use.
-/

/-- JavaScript whitespace (the ASCII part), as matched by `\s`, by
`String.prototype.trim`, and by the `/\s+/` replacement. -/
def isJsWs (c : Char) : Bool :=
  c = ' ' || c = '\t' || c = '\n' || c = '\r' || c = '\x0b' || c = '\x0c'

/-- `String.prototype.trim`: drop leading and trailing whitespace. -/
def trimChars (l : List Char) : List Char :=
  ((l.dropWhile isJsWs).reverse.dropWhile isJsWs).reverse

/-- Worker for `collapseWs`; the flag records whether the previous
character was whitespace (in which case further whitespace is absorbed
into the same `_`). -/
def collapseWsAux : Bool → List Char → List Char
  | _, [] => []
  | prevWs, c :: cs =>
    if isJsWs c then
      if prevWs then collapseWsAux true cs
      else '_' :: collapseWsAux true cs
    else c :: collapseWsAux false cs

/-- `upperName.replace(/\s+/g, '_')`: each maximal whitespace run becomes
a single underscore. -/
def collapseWs (l : List Char) : List Char := collapseWsAux false l

/-- JS `\w` word characters: ASCII letters, digits, underscore. -/
def isWordChar (c : Char) : Bool := c.isAlphanum || c = '_'

/-- Worker for the final `.replace(/\b\w/g, c => c.toUpperCase())` of
`formatLabel`: uppercase every word character that starts a word.  The
flag records whether the previous character was a word character. -/
def capWordsAux : Bool → List Char → List Char
  | _, [] => []
  | prevWord, c :: cs =>
    if isWordChar c && !prevWord then Char.toUpper c :: capWordsAux true cs
    else c :: capWordsAux (isWordChar c) cs

/-- The default branch of `formatLabel`:
`name.replace(/_/g, ' ').toLowerCase().replace(/\b\w/g, c => c.toUpperCase())`. -/
def defaultFormat (name : String) : String :=
  ⟨capWordsAux false
    ((name.data.map (fun c => if c = '_' then ' ' else c)).map Char.toLower)⟩

/-- The status table of `formatLabel` in `ChartsPanel.jsx` (`statusMap`). -/
def statusPairs : List (List Char × String) :=
  [("ACTIVE_NOT_RECRUITING".data, "Active"),
   ("NOT_YET_RECRUITING".data, "Not Recruiting"),
   ("ENROLLING_BY_INVITATION".data, "By Invitation"),
   ("SUSPENDED".data, "Suspended"),
   ("TERMINATED".data, "Terminated"),
   ("COMPLETED".data, "Completed"),
   ("WITHDRAWN".data, "Withdrawn"),
   ("UNKNOWN".data, "Unknown"),
   ("RECRUITING".data, "Recruiting")]

/-- Attempt of the regex `/PHASE\s*(\d+)/i` at the start of `l`:
the literal `PHASE` (case-insensitively), then greedy whitespace, then at
least one digit; the digit run is the capture.  Whitespace and digits are
disjoint, so the greedy interpretation is exact. -/
def matchPhaseFrom (l : List Char) : Option (List Char) :=
  if (l.take 5).map Char.toUpper = "PHASE".data then
    if (((l.drop 5).dropWhile isJsWs).takeWhile Char.isDigit).isEmpty then none
    else some (((l.drop 5).dropWhile isJsWs).takeWhile Char.isDigit)
  else none

/-- `name.match(/PHASE\s*(\d+)/i)`: leftmost match, returning the digit
capture. -/
def phaseMatch : List Char → Option (List Char)
  | [] => none
  | c :: cs =>
    match matchPhaseFrom (c :: cs) with
    | some ds => some ds
    | none => phaseMatch cs

/-- The status-map lookup followed by the default branch of
`formatLabel` (the code after the phase handling in `ChartsPanel.jsx`). -/
def statusOrDefault (name : String) (upperName : List Char) : String :=
  match statusPairs.lookup (collapseWs upperName) with
  | some label => label
  | none => defaultFormat name

/-- The body of `formatLabel` once `upperName` (the uppercased, trimmed
input) is computed: N/A aliases, phase names (`includes('PHASE')`,
`includes('EARLY')`, then the regex match), the status table, then the
title-cased default. -/
def formatLabelCore (name : String) (upperName : List Char) : String :=
  if upperName = "NA".data ∨ upperName = "N/A".data ∨
      upperName = "NOT_APPLICABLE".data then "N/A"
  else if "PHASE".data <:+: upperName then
    if "EARLY".data <:+: upperName then "Early Phase 1"
    else
      match phaseMatch name.data with
      | some ds => ⟨"Phase ".data ++ ds⟩
      | none => statusOrDefault name upperName
  else statusOrDefault name upperName

/-- `formatLabel` from `ChartsPanel.jsx`: `if (!name) return ''`, then
the branches of `formatLabelCore` on
`upperName = name.toUpperCase().trim()`. -/
def formatLabel (name : String) : String :=
  if name = "" then ""
  else formatLabelCore name (trimChars (name.data.map Char.toUpper))

example : formatLabel "PHASE1" = "Phase 1" := by decide
example : formatLabel "phase 2" = "Phase 2" := by decide
example : formatLabel "EARLY_PHASE1" = "Early Phase 1" := by decide
example : formatLabel "EARLY PHASE 3" = "Early Phase 1" := by decide
example : formatLabel "ACTIVE_NOT_RECRUITING" = "Active" := by decide
example : formatLabel "active  not recruiting" = "Active" := by decide
example : formatLabel "not_yet_recruiting" = "Not Recruiting" := by decide
example : formatLabel "observational" = "Observational" := by decide
example : formatLabel "n/a" = "N/A" := by decide
example : formatLabel "" = "" := by decide
example : formatLabel "some_other value" = "Some Other Value" := by decide

/-- A canonical trial as consumed by the frontend components (the fields
`TrialsTable` and the dashboard read). -/
structure Trial where
  title : String
  nct_id : String
  status : String
  deriving DecidableEq

/-- A paper record as consumed by the frontend (only counted by the
dashboard). -/
structure Paper where
  title : String
  journal : String
  deriving DecidableEq

/-- The safety profile of the result envelope, with the fields read by
`SafetyPanel.jsx` and `DashboardPage.jsx`. -/
structure SafetyProfile where
  risk_score : ℚ
  risk_label : String
  adverse_events_count : Nat
  serious_events_count : Nat
  death_reports : Nat
  warnings : List String
  black_box_warnings : List String
  safety_summary : String
  deriving DecidableEq

/-- The result envelope as held in `currentAnalysis` and read by the
dashboard: trial list, paper list, and an optional safety profile. -/
structure Analysis where
  trials : List Trial
  papers : List Paper
  safety : Option SafetyProfile
  deriving DecidableEq

/-- Modelled from the spec: the backend Pipeline Controller (§4.6) is not
under `src/` (only the frontend is).  Per §4.4/§4.6 the controller
assembles the result envelope and, when the safety source failed, the
SafetyProfile is entirely absent from the envelope rather than a
zero-filled placeholder. -/
def assembleEnvelope (trials : List Trial) (papers : List Paper)
    (safetyResult : Except String SafetyProfile) : Analysis :=
  { trials := trials, papers := papers,
    safety := match safetyResult with
      | .ok sp => some sp
      | .error _ => none }

/-- Modelled from the spec: the backend Risk Scorer's label derivation
(§4.4) is not under `src/`.  Thresholds are exactly
`{<4.0: Low, [4.0,7.0): Medium, ≥7.0: High}`. -/
def riskLabelOf (score : ℚ) : String :=
  if score < 4 then "Low" else if score < 7 then "Medium" else "High"

/-- `label.toLowerCase()` (ASCII). -/
def toLowerStr (s : String) : String := ⟨s.data.map Char.toLower⟩

/-- `getRiskColor` from `SafetyPanel.jsx`: the switch on
`label.toLowerCase()`. -/
def getRiskColor (label : String) : String :=
  if toLowerStr label = "high" then "text-red-600 bg-red-50 border-red-200"
  else if toLowerStr label = "medium" then
    "text-yellow-600 bg-yellow-50 border-yellow-200"
  else if toLowerStr label = "low" then
    "text-green-600 bg-green-50 border-green-200"
  else "text-gray-600 bg-gray-50 border-gray-200"

/-- `x.toFixed(1)` for the non-negative scores displayed here: round to
the nearest tenth (ties toward the larger value, as the ECMAScript
`toFixed` specifies), then print `<integer part>.<tenths digit>`.
The rounded tenths count is `⌊10q + 1/2⌋ = ⌊(20·num + den) / (2·den)⌋`,
computed on the numerator and denominator directly. -/
def toFixed1 (q : ℚ) : String :=
  let n : Nat := (20 * q.num + (q.den : Int)).toNat / (2 * q.den)
  toString (n / 10) ++ "." ++ toString (n % 10)

/-- What `SafetyPanel.jsx` renders: either the explicit no-data message,
or the risk panel whose pieces are the card colour from `getRiskColor`,
the `toFixed(1)` score text, the label text, and the progress-bar
colour. -/
inductive SafetyPanelView where
  | noData (message : String)
  | panel (cardColor : String) (scoreText : String) (label : String)
      (barColor : String)
  deriving DecidableEq

/-- The `SafetyPanel` component: `if (!safety)` renders the no-data
card; otherwise the risk panel. -/
def renderSafetyPanel (safety : Option SafetyProfile) : SafetyPanelView :=
  match safety with
  | none => .noData "No safety data available"
  | some sp =>
    .panel (getRiskColor sp.risk_label) (toFixed1 sp.risk_score)
      sp.risk_label
      (if sp.risk_label = "High" then "bg-red-600"
       else if sp.risk_label = "Medium" then "bg-yellow-600"
       else "bg-green-600")

/-- `currentAnalysis?.safety?.adverse_events_count || 0` in
`DashboardPage.jsx`. -/
def dashAdverseEventsCount (a : Analysis) : Nat :=
  match a.safety with
  | none => 0
  | some sp => sp.adverse_events_count

/-- `currentAnalysis?.safety?.risk_score || 0` in `DashboardPage.jsx`
(an absent profile yields 0; a present score of 0 is also 0). -/
def dashRiskScore (a : Analysis) : ℚ :=
  match a.safety with
  | none => 0
  | some sp => sp.risk_score

/-- `currentAnalysis?.safety?.risk_label || 'N/A'` in
`DashboardPage.jsx` (`undefined` and the empty string are falsy). -/
def dashRiskLabel (a : Analysis) : String :=
  match a.safety with
  | none => "N/A"
  | some sp => if sp.risk_label = "" then "N/A" else sp.risk_label

/-- One entry of the `statsCards` array in `DashboardPage.jsx`. -/
structure StatCard where
  title : String
  value : String
  subtitle : Option String
  color : String
  bgColor : String
  textColor : String
  deriving DecidableEq

/-- The fourth `statsCards` entry of `DashboardPage.jsx` (the risk
card): value `` `${riskScore.toFixed(1)}/10` ``, subtitle `riskLabel`,
and colours chosen by the score thresholds 4 and 7. -/
def riskStatCard (a : Analysis) : StatCard :=
  let riskScore := dashRiskScore a
  { title := "Risk Score",
    value := toFixed1 riskScore ++ "/10",
    subtitle := some (dashRiskLabel a),
    color :=
      if riskScore < 4 then "bg-green-500"
      else if riskScore < 7 then "bg-yellow-500" else "bg-red-500",
    bgColor :=
      if riskScore < 4 then "bg-green-50"
      else if riskScore < 7 then "bg-yellow-50" else "bg-red-50",
    textColor :=
      if riskScore < 4 then "text-green-600"
      else if riskScore < 7 then "text-yellow-600" else "text-red-600" }

/-- The full `statsCards` array of `DashboardPage.jsx`. -/
def statsCards (a : Analysis) : List StatCard :=
  [{ title := "Clinical Trials", value := toString a.trials.length,
     subtitle := none, color := "bg-blue-500", bgColor := "bg-blue-50",
     textColor := "text-blue-600" },
   { title := "Research Papers", value := toString a.papers.length,
     subtitle := none, color := "bg-green-500", bgColor := "bg-green-50",
     textColor := "text-green-600" },
   { title := "Adverse Events", value := toString (dashAdverseEventsCount a),
     subtitle := none, color := "bg-yellow-500", bgColor := "bg-yellow-50",
     textColor := "text-yellow-600" },
   riskStatCard a]

/-- The colour tier a dashboard card colour class denotes. -/
inductive RiskTier where
  | low
  | medium
  | high
  | other
  deriving DecidableEq

/-- Tier denoted by the dashboard risk card's `color` class. -/
def dashTier (c : String) : RiskTier :=
  if c = "bg-green-500" then .low
  else if c = "bg-yellow-500" then .medium
  else if c = "bg-red-500" then .high
  else .other

/-- Tier denoted by a `getRiskColor` class string. -/
def panelTier (c : String) : RiskTier :=
  if c = "text-green-600 bg-green-50 border-green-200" then .low
  else if c = "text-yellow-600 bg-yellow-50 border-yellow-200" then .medium
  else if c = "text-red-600 bg-red-50 border-red-200" then .high
  else .other

example : toFixed1 0 = "0.0" := by decide
example : toFixed1 (mkRat 7 2) = "3.5" := by decide
example : toFixed1 (mkRat 39 10) = "3.9" := by decide
example : toFixed1 10 = "10.0" := by decide
example : riskLabelOf 5 = "Medium" := by decide
example :
    renderSafetyPanel none = .noData "No safety data available" := by decide

/-- The state of `useAnalysisStore` in `store.js`. -/
structure AnalysisState where
  currentAnalysis : Option Analysis
  isLoading : Bool
  error : Option String
  history : List Analysis
  deriving DecidableEq

/-- The initial state of `useAnalysisStore`. -/
def initialAnalysisState : AnalysisState :=
  { currentAnalysis := none, isLoading := false, error := none, history := [] }

/-- `setAnalysis`: store the new analysis and prepend it to the history,
keeping `[analysis, ...state.history.slice(0, 9)]`. -/
def setAnalysis (analysis : Analysis) (s : AnalysisState) : AnalysisState :=
  { s with currentAnalysis := some analysis,
           history := analysis :: s.history.take 9 }

/-- `setLoading`. -/
def setLoading (loading : Bool) (s : AnalysisState) : AnalysisState :=
  { s with isLoading := loading }

/-- `setError`. -/
def setError (error : Option String) (s : AnalysisState) : AnalysisState :=
  { s with error := error }

/-- `clearError`. -/
def clearError (s : AnalysisState) : AnalysisState := { s with error := none }

/-- `clearAnalysis`. -/
def clearAnalysis (s : AnalysisState) : AnalysisState :=
  { s with currentAnalysis := none }

/-- `clearHistory`. -/
def clearHistory (s : AnalysisState) : AnalysisState := { s with history := [] }

/-- One invocation of a `useAnalysisStore` action. -/
inductive StoreAction where
  | doSetAnalysis (analysis : Analysis)
  | doSetLoading (loading : Bool)
  | doSetError (error : Option String)
  | doClearError
  | doClearAnalysis
  | doClearHistory

/-- Apply one store action to the state. -/
def applyAction (s : AnalysisState) : StoreAction → AnalysisState
  | .doSetAnalysis a => setAnalysis a s
  | .doSetLoading b => setLoading b s
  | .doSetError e => setError e s
  | .doClearError => clearError s
  | .doClearAnalysis => clearAnalysis s
  | .doClearHistory => clearHistory s

/-- Run a sequence of store actions from the initial state. -/
def runActions (acts : List StoreAction) : AnalysisState :=
  acts.foldl applyAction initialAnalysisState

/-- `toggleTrialSelection` from `useUIStore` in `store.js`:
remove the id if present (`filter((id) => id !== trialId)`), append it
otherwise (`[...state.selectedTrials, trialId]`). -/
def toggleTrialSelection (trialId : String) (selected : List String) :
    List String :=
  if selected.contains trialId then selected.filter (fun id => id != trialId)
  else selected ++ [trialId]

/-- The body of the POST issued by `analysisAPI.analyze` in `api.js`. -/
structure AnalyzeRequest where
  query : String
  filters : List (String × String)
  include_literature : Bool
  include_safety : Bool
  max_trials : Nat
  deriving DecidableEq

/-- `analysisAPI.analyze(query, filters)`: the request body it posts to
`/analyze`. -/
def analyzeRequestBody (query : String) (filters : List (String × String)) :
    AnalyzeRequest :=
  { query := query, filters := filters, include_literature := true,
    include_safety := true, max_trials := 50 }

/-- `matchesSearch` in `TrialsTable`: the lowercased title or NCT id
contains the lowercased search term. -/
def trialMatchesSearch (searchTerm : String) (t : Trial) : Bool :=
  decide ((toLowerStr searchTerm).data <:+: (toLowerStr t.title).data) ||
    decide ((toLowerStr searchTerm).data <:+: (toLowerStr t.nct_id).data)

/-- `matchesStatus` in `TrialsTable`:
`statusFilter === 'all' || trial.status === statusFilter`. -/
def trialMatchesStatus (statusFilter : String) (t : Trial) : Bool :=
  statusFilter == "all" || t.status == statusFilter

/-- The `trials.filter(...)` of `TrialsTable` producing `filteredTrials`. -/
def filterTrials (searchTerm statusFilter : String) (trials : List Trial) :
    List Trial :=
  trials.filter
    (fun t => trialMatchesSearch searchTerm t && trialMatchesStatus statusFilter t)

example :
    toggleTrialSelection "NCT2" ["NCT1", "NCT2", "NCT3"] = ["NCT1", "NCT3"] := by
  decide
example :
    toggleTrialSelection "NCT4" ["NCT1"] = ["NCT1", "NCT4"] := by decide
example :
    filterTrials "abc" "all"
      [⟨"xAbCy", "NCT1", "Recruiting"⟩, ⟨"zzz", "NCT2", "Completed"⟩] =
      [⟨"xAbCy", "NCT1", "Recruiting"⟩] := by decide

/-- The spec's phrase "any string containing `PHASE` followed by a digit"
(in any letter case, with optional whitespace between the word and the
digit): the character list decomposes around such an occurrence. -/
def ContainsPhaseDigit (l : List Char) : Prop :=
  ∃ pre pw ws d post,
    l = pre ++ pw ++ ws ++ d :: post ∧
    pw.map Char.toUpper = "PHASE".data ∧
    (∀ c ∈ ws, isJsWs c = true) ∧
    d.isDigit = true

/-- The claim's "recognized by neither the phase rule nor the status
table" for `formatLabel`: the uppercased trimmed form is not an N/A
alias, does not contain `PHASE`, and its whitespace-collapsed form is
not a key of the status table. -/
def UnrecognizedLabel (s : String) : Prop :=
  trimChars (s.data.map Char.toUpper) ≠ "NA".data ∧
  trimChars (s.data.map Char.toUpper) ≠ "N/A".data ∧
  trimChars (s.data.map Char.toUpper) ≠ "NOT_APPLICABLE".data ∧
  ¬("PHASE".data <:+: trimChars (s.data.map Char.toUpper)) ∧
  statusPairs.lookup (collapseWs (trimChars (s.data.map Char.toUpper))) = none

theorem isJsWs_eq_false_of_isDigit {c : Char} (h : c.isDigit = true) :
    isJsWs c = false := by
  have h1 : c ≠ ' ' := fun e => absurd (e ▸ h) (by decide)
  have h2 : c ≠ '\t' := fun e => absurd (e ▸ h) (by decide)
  have h3 : c ≠ '\n' := fun e => absurd (e ▸ h) (by decide)
  have h4 : c ≠ '\r' := fun e => absurd (e ▸ h) (by decide)
  have h5 : c ≠ '\x0b' := fun e => absurd (e ▸ h) (by decide)
  have h6 : c ≠ '\x0c' := fun e => absurd (e ▸ h) (by decide)
  unfold isJsWs
  rw [decide_eq_false h1, decide_eq_false h2, decide_eq_false h3,
    decide_eq_false h4, decide_eq_false h5, decide_eq_false h6]
  rfl

theorem capWordsAux_length : ∀ (b : Bool) (l : List Char),
    (capWordsAux b l).length = l.length := by
  intro b l
  induction l generalizing b with
  | nil => rfl
  | cons c cs ih =>
    by_cases h : (isWordChar c && !b) = true <;>
      simp [capWordsAux, h, ih]

theorem defaultFormat_length (s : String) :
    (defaultFormat s).length = s.length := by
  have h := capWordsAux_length false
      ((s.data.map (fun c => if c = '_' then ' ' else c)).map Char.toLower)
  simp only [List.length_map] at h
  exact h

theorem matchPhaseFrom_digits {l ds : List Char}
    (h : matchPhaseFrom l = some ds) :
    ds ≠ [] ∧ ∀ c ∈ ds, c.isDigit = true := by
  unfold matchPhaseFrom at h
  split at h
  · split at h
    · exact absurd h (by simp)
    · next hne =>
      cases h
      refine ⟨by simpa using hne, fun c hc => List.mem_takeWhile_imp hc⟩
  · exact absurd h (by simp)

theorem phaseMatch_digits : ∀ {l ds : List Char}, phaseMatch l = some ds →
    ds ≠ [] ∧ ∀ c ∈ ds, c.isDigit = true := by
  intro l
  induction l with
  | nil => intro ds h; exact absurd h (by simp [phaseMatch])
  | cons c cs ih =>
    intro ds h
    unfold phaseMatch at h
    cases hm : matchPhaseFrom (c :: cs) with
    | some ds0 =>
      rw [hm] at h
      cases h
      exact matchPhaseFrom_digits hm
    | none =>
      rw [hm] at h
      exact ih h

theorem phaseMatch_cons_of_matchFrom {c : Char} {cs ds : List Char}
    (h : matchPhaseFrom (c :: cs) = some ds) : phaseMatch (c :: cs) = some ds := by
  unfold phaseMatch
  rw [h]

theorem phaseMatch_cons (c : Char) (cs : List Char) :
    phaseMatch (c :: cs) =
      match matchPhaseFrom (c :: cs) with
      | some ds => some ds
      | none => phaseMatch cs := rfl

theorem matchPhaseFrom_at_head (pw ws : List Char) (d : Char)
    (post : List Char) (hpw : pw.map Char.toUpper = "PHASE".data)
    (hws : ∀ c ∈ ws, isJsWs c = true) (hd : d.isDigit = true) :
    matchPhaseFrom (pw ++ ws ++ d :: post) ≠ none := by
  have hlen : pw.length = 5 := by
    have := congrArg List.length hpw
    simpa using this
  unfold matchPhaseFrom
  have htake : ((pw ++ ws) ++ d :: post).take 5 = pw := by
    rw [List.append_assoc]
    exact List.take_left' hlen
  have hdrop : ((pw ++ ws) ++ d :: post).drop 5 = ws ++ d :: post := by
    rw [List.append_assoc]
    exact List.drop_left' hlen
  rw [htake, hdrop, hpw, if_pos rfl,
    List.dropWhile_append_of_pos (by simpa using hws), List.dropWhile_cons,
    isJsWs_eq_false_of_isDigit hd]
  simp [List.takeWhile_cons, hd]

theorem phaseMatch_isSome {l : List Char} (h : ContainsPhaseDigit l) :
    ∃ ds, phaseMatch l = some ds := by
  obtain ⟨pre, pw, ws, d, post, rfl, hpw, hws, hd⟩ := h
  induction pre with
  | nil =>
    have hmatch := matchPhaseFrom_at_head pw ws d post hpw hws hd
    cases pw with
    | nil =>
      have := congrArg List.length hpw
      simp at this
    | cons c cs =>
      simp only [List.nil_append, List.cons_append] at hmatch
      simp only [List.nil_append, List.cons_append]
      cases hm : matchPhaseFrom (c :: ((cs ++ ws) ++ d :: post)) with
      | none => exact absurd hm hmatch
      | some ds =>
        refine ⟨ds, ?_⟩
        rw [phaseMatch_cons, hm]
  | cons p pre ih =>
    obtain ⟨ds0, hds0⟩ := ih
    simp only [List.cons_append]
    cases hm : matchPhaseFrom (p :: (((pre ++ pw) ++ ws) ++ d :: post)) with
    | none =>
      refine ⟨ds0, ?_⟩
      rw [phaseMatch_cons, hm]
      exact hds0
    | some ds =>
      refine ⟨ds, ?_⟩
      rw [phaseMatch_cons, hm]

theorem noWs_prefix_collapseAux {p : List Char}
    (hws : ∀ c ∈ p, isJsWs c = false) :
    ∀ {l : List Char}, p <+: l → p <+: collapseWsAux false l := by
  induction p with
  | nil => intro l _; exact List.nil_prefix
  | cons a as ih =>
    intro l h
    cases l with
    | nil => simp at h
    | cons c cs =>
      obtain ⟨rfl, has⟩ := List.cons_prefix_cons.mp h
      have hc : isJsWs a = false := hws a (List.mem_cons_self a _)
      unfold collapseWsAux
      rw [hc]
      exact List.cons_prefix_cons.mpr
        ⟨rfl, ih (fun x hx => hws x (List.mem_cons_of_mem a hx)) has⟩

theorem noWs_infix_collapseAux {p : List Char} (hne : p ≠ [])
    (hws : ∀ c ∈ p, isJsWs c = false) :
    ∀ (b : Bool) {l : List Char}, p <:+: l → p <:+: collapseWsAux b l := by
  intro b l
  induction l generalizing b with
  | nil =>
    intro h
    rw [List.infix_nil.mp h] at hne
    exact absurd rfl hne
  | cons c cs ih =>
    intro h
    rcases List.infix_cons_iff.mp h with hpre | hinf
    · cases p with
      | nil => exact absurd rfl hne
      | cons a as =>
        obtain ⟨rfl, has⟩ := List.cons_prefix_cons.mp hpre
        have hc : isJsWs a = false := hws a (List.mem_cons_self a _)
        unfold collapseWsAux
        rw [hc]
        exact (List.cons_prefix_cons.mpr
          ⟨rfl, noWs_prefix_collapseAux
            (fun x hx => hws x (List.mem_cons_of_mem a hx)) has⟩).isInfix
    · have h1 := ih true hinf
      have h2 := ih false hinf
      unfold collapseWsAux
      cases hc : isJsWs c with
      | true =>
        cases b with
        | true => simpa using h1
        | false => simpa using List.infix_cons h1
      | false => simpa using List.infix_cons h2

theorem noWs_infix_dropWhile {p : List Char} (hne : p ≠ [])
    (hws : ∀ c ∈ p, isJsWs c = false) :
    ∀ {l : List Char}, p <:+: l → p <:+: l.dropWhile isJsWs := by
  intro l
  induction l with
  | nil =>
    intro h
    rw [List.infix_nil.mp h] at hne
    exact absurd rfl hne
  | cons c cs ih =>
    intro h
    rcases List.infix_cons_iff.mp h with hpre | hinf
    · cases p with
      | nil => exact absurd rfl hne
      | cons a as =>
        obtain ⟨rfl, _⟩ := List.cons_prefix_cons.mp hpre
        have hc : isJsWs a = false := hws a (List.mem_cons_self a _)
        rw [List.dropWhile_cons, hc]
        simpa using hpre.isInfix
    · rw [List.dropWhile_cons]
      cases hc : isJsWs c with
      | true => simpa using ih hinf
      | false => simpa using List.infix_cons hinf

theorem noWs_infix_trim {p l : List Char} (hne : p ≠ [])
    (hws : ∀ c ∈ p, isJsWs c = false) (h : p <:+: l) :
    p <:+: trimChars l := by
  have h1 := noWs_infix_dropWhile hne hws h
  have h2 : p.reverse <:+: (l.dropWhile isJsWs).reverse :=
    List.reverse_infix.mpr h1
  have hne2 : p.reverse ≠ [] := by simpa using hne
  have hws2 : ∀ c ∈ p.reverse, isJsWs c = false := by
    intro c hc
    exact hws c (List.mem_reverse.mp hc)
  have h3 := noWs_infix_dropWhile hne2 hws2 h2
  have h4 : p.reverse <:+:
      (((l.dropWhile isJsWs).reverse.dropWhile isJsWs).reverse).reverse := by
    rwa [List.reverse_reverse]
  exact List.reverse_infix.mp h4

theorem applyAction_history_le (s : AnalysisState) (act : StoreAction)
    (h : s.history.length ≤ 10) : (applyAction s act).history.length ≤ 10 := by
  cases act with
  | doSetAnalysis a =>
    have hlt := List.length_take 9 s.history
    simp only [applyAction, setAnalysis, List.length_cons]
    omega
  | doSetLoading b => simpa [applyAction, setLoading] using h
  | doSetError e => simpa [applyAction, setError] using h
  | doClearError => simpa [applyAction, clearError] using h
  | doClearAnalysis => simpa [applyAction, clearAnalysis] using h
  | doClearHistory => simp [applyAction, clearHistory]

theorem foldl_history_le (acts : List StoreAction) :
    ∀ s : AnalysisState, s.history.length ≤ 10 →
      (acts.foldl applyAction s).history.length ≤ 10 := by
  induction acts with
  | nil => intro s h; simpa using h
  | cons act acts ih =>
    intro s h
    exact ih _ (applyAction_history_le s act h)

/-- C6: every analysis-store action builds a new state value; the
analyses already stored are carried over as the very same values
(`setAnalysis` conses the new analysis onto a take of the old history, a
sublist of it), and no action rewrites the contents of a stored
analysis. -/
theorem store_actions_preserve_stored_analyses (s : AnalysisState)
    (a : Analysis) (b : Bool) (e : Option String) :
    (setAnalysis a s).currentAnalysis = some a ∧
    (setAnalysis a s).history = a :: s.history.take 9 ∧
    List.Sublist (s.history.take 9) s.history ∧
    (setLoading b s).currentAnalysis = s.currentAnalysis ∧
    (setLoading b s).history = s.history ∧
    (setError e s).currentAnalysis = s.currentAnalysis ∧
    (setError e s).history = s.history ∧
    (clearError s).currentAnalysis = s.currentAnalysis ∧
    (clearError s).history = s.history ∧
    (clearAnalysis s).history = s.history ∧
    (clearHistory s).currentAnalysis = s.currentAnalysis :=
  ⟨rfl, rfl, List.take_sublist 9 s.history, rfl, rfl, rfl, rfl, rfl, rfl,
    rfl, rfl⟩

/-- C7: for every query and filter set, the `/analyze` request body
carries exactly the run-contract option fields, with
`include_literature = true`, `include_safety = true`, and
`max_trials = 50`. -/
theorem analyze_request_options (query : String)
    (filters : List (String × String)) :
    (analyzeRequestBody query filters).include_literature = true ∧
    (analyzeRequestBody query filters).include_safety = true ∧
    (analyzeRequestBody query filters).max_trials = 50 ∧
    (analyzeRequestBody query filters).query = query ∧
    (analyzeRequestBody query filters).filters = filters :=
  ⟨rfl, rfl, rfl, rfl, rfl⟩

/-- C8: from the initial state, every sequence of store actions leaves at
most 10 entries in the history, and immediately after `setAnalysis a`
the head of the history is `a`. -/
theorem history_bounded_and_head (acts : List StoreAction)
    (s : AnalysisState) (a : Analysis) :
    (runActions acts).history.length ≤ 10 ∧
    (setAnalysis a s).history.head? = some a :=
  ⟨foldl_history_le acts initialAnalysisState (by simp [initialAnalysisState]),
    rfl⟩

/-- C9: `toggleTrialSelection` is a membership toggle, and applying it
twice with the same trial id restores exactly the original membership. -/
theorem toggleTrialSelection_membership (s : List String) (t : String) :
    (t ∈ toggleTrialSelection t s ↔ t ∉ s) ∧
    (∀ x, x ∈ toggleTrialSelection t (toggleTrialSelection t s) ↔ x ∈ s) := by
  constructor
  · by_cases h : t ∈ s
    · simp [toggleTrialSelection, h, List.mem_filter]
    · simp [toggleTrialSelection, h]
  · intro x
    by_cases h : t ∈ s
    · have h1 : toggleTrialSelection t s = s.filter (fun id => id != t) := by
        simp [toggleTrialSelection, h]
      have h2 : t ∉ s.filter (fun id => id != t) := by
        simp [List.mem_filter]
      rw [h1]
      have h3 : toggleTrialSelection t (s.filter (fun id => id != t)) =
          s.filter (fun id => id != t) ++ [t] := by
        simp [toggleTrialSelection, h2]
      rw [h3]
      by_cases hx : x = t
      · subst hx
        simp [List.mem_filter, h]
      · simp [List.mem_filter, hx]
    · have h1 : toggleTrialSelection t s = s ++ [t] := by
        simp [toggleTrialSelection, h]
      have h2 : t ∈ s ++ [t] := by simp
      rw [h1]
      have h3 : toggleTrialSelection t (s ++ [t]) =
          (s ++ [t]).filter (fun id => id != t) := by
        simp [toggleTrialSelection, h2]
      rw [h3]
      by_cases hx : x = t
      · subst hx
        simp [List.mem_filter, h]
      · simp [List.mem_filter, hx]

/-- C10: filtering the trials table with an empty search term and the
`all` status filter is the identity, and every filter result is a
subsequence of the input (order-preserving selection). -/
theorem filterTrials_identity_and_sublist :
    (∀ trials : List Trial, filterTrials "" "all" trials = trials) ∧
    (∀ (searchTerm statusFilter : String) (trials : List Trial),
      List.Sublist (filterTrials searchTerm statusFilter trials) trials) := by
  constructor
  · intro trials
    apply List.filter_eq_self.mpr
    intro t _
    have h1 : trialMatchesSearch "" t = true := by
      simp [trialMatchesSearch, toLowerStr]
    have h2 : trialMatchesStatus "all" t = true := by
      simp [trialMatchesStatus]
    simp [h1, h2]
  · intro searchTerm statusFilter trials
    exact List.filter_sublist trials

theorem formatLabel_of_collapse (s : String) (key : List Char)
    (label : String) (hlook : statusPairs.lookup key = some label)
    (hk0 : key ≠ []) (hk1 : key ≠ "NA".data) (hk2 : key ≠ "N/A".data)
    (hk3 : key ≠ "NOT_APPLICABLE".data)
    (hnoPhase : ¬ "PHASE".data <:+: key)
    (hkey : collapseWs (trimChars (s.data.map Char.toUpper)) = key) :
    formatLabel s = label := by
  have hs : s ≠ "" := by
    intro h
    subst h
    exact hk0 hkey.symm
  have hNA : ¬(trimChars (s.data.map Char.toUpper) = "NA".data ∨
      trimChars (s.data.map Char.toUpper) = "N/A".data ∨
      trimChars (s.data.map Char.toUpper) = "NOT_APPLICABLE".data) := by
    rintro (h | h | h)
    · rw [h, (by decide : collapseWs "NA".data = "NA".data)] at hkey
      exact hk1 hkey.symm
    · rw [h, (by decide : collapseWs "N/A".data = "N/A".data)] at hkey
      exact hk2 hkey.symm
    · rw [h,
        (by decide :
          collapseWs "NOT_APPLICABLE".data = "NOT_APPLICABLE".data)] at hkey
      exact hk3 hkey.symm
  have hPh : ¬ "PHASE".data <:+: trimChars (s.data.map Char.toUpper) := by
    intro hinf
    exact hnoPhase
      (hkey ▸ noWs_infix_collapseAux (by decide) (by decide) false hinf)
  unfold formatLabel
  rw [if_neg hs]
  unfold formatLabelCore
  rw [if_neg hNA, if_neg hPh]
  unfold statusOrDefault
  rw [hkey, hlook]

/-- C5: every long-form status string of the recognized table is mapped
by `formatLabel` to its short canonical label, regardless of letter case
and with interior whitespace runs equivalent to underscores: whenever
the uppercased, trimmed, whitespace-collapsed form of the input equals a
table key, the table's label is returned. -/
theorem formatLabel_statusTable (s : String) (key : List Char)
    (label : String) (hmem : (key, label) ∈ statusPairs)
    (hkey : collapseWs (trimChars (s.data.map Char.toUpper)) = key) :
    formatLabel s = label := by
  fin_cases hmem <;>
    exact formatLabel_of_collapse s _ _ (by decide) (by decide) (by decide)
      (by decide) (by decide) (by decide) hkey

/-- Witness for C5 at a concrete input: `"Active  Not Recruiting"`
(mixed case, a double interior space) collapses to the table key
`ACTIVE_NOT_RECRUITING` and is formatted as `Active`. -/
theorem formatLabel_statusTable_witness :
    ("ACTIVE_NOT_RECRUITING".data, ("Active" : String)) ∈ statusPairs ∧
    collapseWs (trimChars ("Active  Not Recruiting".data.map Char.toUpper)) =
      "ACTIVE_NOT_RECRUITING".data ∧
    formatLabel "Active  Not Recruiting" = "Active" :=
  ⟨by decide, by decide,
    formatLabel_statusTable "Active  Not Recruiting"
      "ACTIVE_NOT_RECRUITING".data "Active" (by decide) (by decide)⟩

/-- C3 (amended): for every input containing `PHASE` followed (after
optional whitespace) by a digit, in any letter case, whose uppercased
trimmed form does not contain `EARLY`, `formatLabel` returns
`Phase <digits>` where `<digits>` is the (non-empty) digit run captured
at the leftmost such occurrence. -/
theorem formatLabel_phase (name : String)
    (hph : ContainsPhaseDigit name.data)
    (hearly : ¬ "EARLY".data <:+: trimChars (name.data.map Char.toUpper)) :
    ∃ ds, phaseMatch name.data = some ds ∧ ds ≠ [] ∧
      (∀ c ∈ ds, c.isDigit = true) ∧
      formatLabel name = ⟨"Phase ".data ++ ds⟩ := by
  obtain ⟨ds, hm⟩ := phaseMatch_isSome hph
  obtain ⟨hne, hdig⟩ := phaseMatch_digits hm
  obtain ⟨pre, pw, ws, d, post, hdec, hpw, hws, hd⟩ := hph
  have hup : "PHASE".data <:+: name.data.map Char.toUpper := by
    refine ⟨pre.map Char.toUpper,
      ws.map Char.toUpper ++ Char.toUpper d :: post.map Char.toUpper, ?_⟩
    rw [hdec]
    simp only [List.map_append, List.map_cons, List.append_assoc, hpw]
  have hupt : "PHASE".data <:+: trimChars (name.data.map Char.toUpper) :=
    noWs_infix_trim (by decide) (by decide) hup
  have hsne : name ≠ "" := by
    intro h
    rw [h] at hdec
    have hlen := congrArg List.length hdec
    simp [List.length_append] at hlen
    omega
  have hNA : ¬(trimChars (name.data.map Char.toUpper) = "NA".data ∨
      trimChars (name.data.map Char.toUpper) = "N/A".data ∨
      trimChars (name.data.map Char.toUpper) = "NOT_APPLICABLE".data) := by
    rintro (h | h | h) <;> rw [h] at hupt <;> exact absurd hupt (by decide)
  refine ⟨ds, hm, hne, hdig, ?_⟩
  unfold formatLabel
  rw [if_neg hsne]
  unfold formatLabelCore
  rw [if_neg hNA, if_pos hupt, if_neg hearly, hm]

/-- C3 counterexample: `"EARLY PHASE 3"` contains `PHASE` followed by a
digit, yet `formatLabel` does not return `Phase 3` — the surrounding
text (`EARLY`) changes the result to `Early Phase 1`. -/
theorem formatLabel_phase_cex :
    ContainsPhaseDigit ("EARLY PHASE 3".data) ∧
    formatLabel "EARLY PHASE 3" = "Early Phase 1" ∧
    formatLabel "EARLY PHASE 3" ≠ "Phase 3" := by
  refine ⟨⟨"EARLY ".data, "PHASE".data, " ".data, '3', [], by decide,
    by decide, by decide, by decide⟩, by decide, by decide⟩

/-- Witness for C3 at a concrete input: `"phase 2 trial"`. -/
theorem formatLabel_phase_witness :
    ∃ ds, phaseMatch "phase 2 trial".data = some ds ∧ ds ≠ [] ∧
      (∀ c ∈ ds, c.isDigit = true) ∧
      formatLabel "phase 2 trial" = ⟨"Phase ".data ++ ds⟩ :=
  formatLabel_phase "phase 2 trial"
    ⟨[], "phase".data, " ".data, '2', " trial".data, by decide, by decide,
      by decide, by decide⟩
    (by decide)

/-- C4 (amended): an unrecognized vocabulary value is not dropped:
`formatLabel` sends it through the default reformatting branch
(underscores to spaces, lower case, then word capitalization), which
preserves its length — in particular a non-empty unrecognized value is
never mapped to the empty string.  It is however reformatted, not always
returned verbatim. -/
theorem formatLabel_unrecognized (s : String) (hu : UnrecognizedLabel s) :
    formatLabel s = defaultFormat s ∧ (formatLabel s).length = s.length ∧
      (s ≠ "" → formatLabel s ≠ "") := by
  obtain ⟨h1, h2, h3, h4, h5⟩ := hu
  have heq : formatLabel s = defaultFormat s := by
    by_cases hs : s = ""
    · subst hs
      decide
    · unfold formatLabel
      rw [if_neg hs]
      unfold formatLabelCore
      have hNA : ¬(trimChars (s.data.map Char.toUpper) = "NA".data ∨
          trimChars (s.data.map Char.toUpper) = "N/A".data ∨
          trimChars (s.data.map Char.toUpper) = "NOT_APPLICABLE".data) := by
        rintro (h | h | h)
        · exact h1 h
        · exact h2 h
        · exact h3 h
      rw [if_neg hNA, if_neg h4]
      unfold statusOrDefault
      rw [h5]
  refine ⟨heq, ?_, ?_⟩
  · rw [heq]
    exact defaultFormat_length s
  · intro hs hempty
    apply hs
    have hlen : s.length = 0 := by
      rw [← defaultFormat_length s, ← heq, hempty]
      rfl
    cases s with
    | mk data =>
      cases data with
      | nil => rfl
      | cons c cs => simp [String.length] at hlen

/-- C4 counterexample: `"observational"` is recognized by neither the
phase rule nor the status table, yet `formatLabel` does not return it
unchanged — it is title-cased to `"Observational"`. -/
theorem formatLabel_unrecognized_cex :
    UnrecognizedLabel "observational" ∧ ("observational" : String) ≠ "" ∧
    formatLabel "observational" ≠ "observational" ∧
    formatLabel "observational" = "Observational" := by
  refine ⟨⟨by decide, by decide, by decide, by decide, by decide⟩,
    by decide, by decide, by decide⟩

/-- Witness for C4 at a concrete input: `"some_other value"`. -/
theorem formatLabel_unrecognized_witness :
    UnrecognizedLabel "some_other value" ∧
    (formatLabel "some_other value" = defaultFormat "some_other value" ∧
      (formatLabel "some_other value").length = ("some_other value" : String).length ∧
      (("some_other value" : String) ≠ "" → formatLabel "some_other value" ≠ "")) :=
  ⟨⟨by decide, by decide, by decide, by decide, by decide⟩,
    formatLabel_unrecognized "some_other value"
      ⟨by decide, by decide, by decide, by decide, by decide⟩⟩

/-- C1 counterexample: the dashboard does render a zero risk score with
the low-risk (green) presentation when the safety profile is absent —
refuting the claim's "the dashboard does not display a risk score of 0
with a no-risk presentation", at the concrete envelope with no safety
field. -/
theorem dashboard_zero_risk_cex :
    ¬ (∀ a : Analysis, a.safety = none →
        ¬((riskStatCard a).value = "0.0/10" ∧
          (riskStatCard a).color = "bg-green-500")) := by
  intro h
  exact h (Analysis.mk [] [] none) rfl ⟨by decide, by decide⟩

/-- C1 (amended): when the safety source failed the envelope's safety
field is absent (pipeline controller modelled from the spec), and
`SafetyPanel` renders the explicit `No safety data available` state; the
dashboard risk card, however, falls back to a score of 0 rendered as
`0.0/10` with green (low-risk) colouring and subtitle `N/A` rather than
a distinct no-data state. -/
theorem safety_absent_presentation (trials : List Trial)
    (papers : List Paper) (err : String) (a : Analysis)
    (ha : a.safety = none) :
    (assembleEnvelope trials papers (Except.error err)).safety = none ∧
    renderSafetyPanel a.safety = .noData "No safety data available" ∧
    (riskStatCard a).value = "0.0/10" ∧
    (riskStatCard a).color = "bg-green-500" ∧
    (riskStatCard a).subtitle = some "N/A" := by
  have hsc : dashRiskScore a = 0 := by simp [dashRiskScore, ha]
  refine ⟨rfl, by rw [ha]; rfl, ?_, ?_, ?_⟩
  · simp only [riskStatCard, hsc]
    decide
  · simp only [riskStatCard, hsc]
    decide
  · simp only [riskStatCard, dashRiskLabel, ha]

/-- Witness for C1 at concrete inputs: an errored safety fetch and the
envelope without a safety profile. -/
theorem safety_absent_presentation_witness :
    (assembleEnvelope [] [] (Except.error "unavailable")).safety = none ∧
    renderSafetyPanel (Analysis.mk [] [] none).safety =
      .noData "No safety data available" ∧
    (riskStatCard (Analysis.mk [] [] none)).value = "0.0/10" ∧
    (riskStatCard (Analysis.mk [] [] none)).color = "bg-green-500" ∧
    (riskStatCard (Analysis.mk [] [] none)).subtitle = some "N/A" :=
  safety_absent_presentation [] [] "unavailable" (Analysis.mk [] [] none) rfl

/-- C2: with the spec-modelled label derivation, on every score in
[0,10] the label is `Low` iff the score is below 4, `Medium` iff it is
in [4,7), and `High` iff it is at least 7; and the dashboard risk
card's score-based colouring agrees in tier with `SafetyPanel`'s
label-based `getRiskColor` colouring. -/
theorem risk_label_thresholds_agree (a : Analysis) (sp : SafetyProfile)
    (ha : a.safety = some sp) (_h0 : 0 ≤ sp.risk_score)
    (_h10 : sp.risk_score ≤ 10)
    (hl : sp.risk_label = riskLabelOf sp.risk_score) :
    ((sp.risk_label = "Low" ↔ sp.risk_score < 4) ∧
     (sp.risk_label = "Medium" ↔ 4 ≤ sp.risk_score ∧ sp.risk_score < 7) ∧
     (sp.risk_label = "High" ↔ 7 ≤ sp.risk_score)) ∧
    dashTier (riskStatCard a).color = panelTier (getRiskColor sp.risk_label) := by
  have hsc : dashRiskScore a = sp.risk_score := by simp [dashRiskScore, ha]
  have hcol : (riskStatCard a).color =
      (if sp.risk_score < 4 then "bg-green-500"
       else if sp.risk_score < 7 then "bg-yellow-500" else "bg-red-500") := by
    simp only [riskStatCard, hsc]
  rcases lt_or_le sp.risk_score 4 with h4 | h4
  · have hlab : sp.risk_label = "Low" := by
      rw [hl]
      unfold riskLabelOf
      rw [if_pos h4]
    constructor
    · refine ⟨⟨fun _ => h4, fun _ => hlab⟩, ?_, ?_⟩
      · constructor
        · intro h
          rw [hlab] at h
          exact absurd h (by decide)
        · rintro ⟨hge, _⟩
          exact absurd h4 (not_lt.mpr hge)
      · constructor
        · intro h
          rw [hlab] at h
          exact absurd h (by decide)
        · intro h7
          exact absurd h4 (not_lt.mpr (by linarith))
    · rw [hcol, if_pos h4, hlab]
      decide
  · rcases lt_or_le sp.risk_score 7 with h7 | h7
    · have hlab : sp.risk_label = "Medium" := by
        rw [hl]
        unfold riskLabelOf
        rw [if_neg (not_lt.mpr h4), if_pos h7]
      constructor
      · refine ⟨?_, ⟨fun _ => ⟨h4, h7⟩, fun _ => hlab⟩, ?_⟩
        · constructor
          · intro h
            rw [hlab] at h
            exact absurd h (by decide)
          · intro hlt
            exact absurd hlt (not_lt.mpr h4)
        · constructor
          · intro h
            rw [hlab] at h
            exact absurd h (by decide)
          · intro hge
            exact absurd h7 (not_lt.mpr hge)
      · rw [hcol, if_neg (not_lt.mpr h4), if_pos h7, hlab]
        decide
    · have hlab : sp.risk_label = "High" := by
        rw [hl]
        unfold riskLabelOf
        rw [if_neg (not_lt.mpr h4), if_neg (not_lt.mpr h7)]
      constructor
      · refine ⟨?_, ?_, ⟨fun _ => h7, fun _ => hlab⟩⟩
        · constructor
          · intro h
            rw [hlab] at h
            exact absurd h (by decide)
          · intro hlt
            exact absurd hlt (not_lt.mpr h4)
        · constructor
          · intro h
            rw [hlab] at h
            exact absurd h (by decide)
          · rintro ⟨_, hlt⟩
            exact absurd hlt (not_lt.mpr h7)
      · rw [hcol, if_neg (not_lt.mpr h4), if_neg (not_lt.mpr h7), hlab]
        decide

/-- Witness for C2 at a concrete mid-range score: score 5 labelled
`Medium`, where the dashboard colouring and the panel colouring agree. -/
theorem risk_label_thresholds_agree_witness :
    dashTier (riskStatCard (Analysis.mk [] []
        (some (SafetyProfile.mk 5 "Medium" 0 0 0 [] [] "")))).color =
      panelTier (getRiskColor
        (SafetyProfile.mk 5 "Medium" 0 0 0 [] [] "").risk_label) :=
  (risk_label_thresholds_agree
    (Analysis.mk [] [] (some (SafetyProfile.mk 5 "Medium" 0 0 0 [] [] "")))
    (SafetyProfile.mk 5 "Medium" 0 0 0 [] [] "")
    rfl (by decide) (by decide) (by decide)).2
